import Mathlib

/-!
Shallow embedding of the `umm` user-management module
(`internal/userstore/sqlite.go` plus the schema created by `migrate`).

The store is a single SQLite table
  users(id INTEGER PRIMARY KEY AUTOINCREMENT,
        username TEXT NOT NULL UNIQUE,
        email TEXT NOT NULL UNIQUE,
        created_at DATETIME DEFAULT CURRENT_TIMESTAMP)
accessed through five CRUD operations and Close.  The embedding models the
table as a list of rows plus the AUTOINCREMENT counter and a closed flag on
the handle.  Timestamps are natural numbers (0 is Go's zero time.Time); the
database clock is passed to `Create` as an explicit `now` argument, standing
for CURRENT_TIMESTAMP at insertion time.  The cancellation context and disk
I/O failures are not modelled: the only failure sources are a closed handle,
uniqueness violations, and missing rows, exactly the ones the Go code
branches on.
-/

namespace Umm

/-- A user record, mirroring the Go `User` struct: `ID int64`,
`Username string`, `Email string`, `CreatedAt time.Time`
(modelled as a `Nat` timestamp, `0` = the zero `time.Time`). -/
structure User where
  ID : Int
  Username : String
  Email : String
  CreatedAt : Nat
deriving DecidableEq, Repr

/-- State of an opened store: the rows of the `users` table, the
AUTOINCREMENT counter (the id the next successful insert will receive;
SQLite keeps it in `sqlite_sequence`, it only grows and ids are never
reused), and whether `Close` has been called on the handle. -/
structure Store where
  rows : List User
  nextId : Int
  closed : Bool
deriving DecidableEq, Repr

/-- The error taxonomy of the Go package: `ErrDuplicateUser`,
`ErrUserNotFound`, and everything else wrapped via `fmt.Errorf` into a
generic storage error carrying a message string. -/
inductive Err where
  | duplicate
  | notFound
  | storage (msg : String)
deriving DecidableEq, Repr

/-- The message `database/sql` produces once the handle is closed. -/
def closedMsg : String := "sql: database is closed"

/-- A freshly migrated store: empty table, AUTOINCREMENT starts at 1. -/
def Store.init : Store := { rows := [], nextId := 1, closed := false }

/-- Does some row already carry this username?  (the `username` column is
declared UNIQUE, so an insert or update colliding on it fails). -/
def hasUsername (rows : List User) (uname : String) : Bool :=
  rows.any (fun r => r.Username == uname)

/-- Does some row already carry this email?  (`email` is UNIQUE). -/
def hasEmail (rows : List User) (email : String) : Bool :=
  rows.any (fun r => r.Email == email)

/-- `Create`: begins a transaction, runs
`INSERT INTO users (username, email) VALUES (?, ?)`, maps a
"UNIQUE constraint failed" error to `ErrDuplicateUser`, retrieves
`LastInsertId`, writes it onto the caller's record (`user.ID = id` — this is
the only field the Go code writes back), and commits.  Every failure path
rolls the transaction back, leaving the table untouched.  The new row's
`created_at` is filled by the column default CURRENT_TIMESTAMP, i.e. `now`.
Returns (error value, store after the call, caller's record after the
call). -/
def Create (now : Nat) (s : Store) (u : User) : Except Err Unit × Store × User :=
  if s.closed then
    (Except.error (Err.storage ("Failed to begin transctions : " ++ closedMsg)), s, u)
  else if hasUsername s.rows u.Username || hasEmail s.rows u.Email then
    (Except.error Err.duplicate, s, u)
  else
    let row : User :=
      { ID := s.nextId, Username := u.Username, Email := u.Email, CreatedAt := now }
    (Except.ok (),
     { s with rows := s.rows ++ [row], nextId := s.nextId + 1 },
     { u with ID := s.nextId })

/-- `GetById`: `SELECT id, username, email, created_at FROM users WHERE
id = ?`, scanning the single matching row; `sql.ErrNoRows` becomes
`ErrUserNotFound`, any other failure (e.g. a closed handle) is wrapped as a
storage error. -/
def GetById (s : Store) (id : Int) : Except Err User :=
  if s.closed then
    Except.error (Err.storage ("Failed to get user: " ++ closedMsg))
  else
    match s.rows.find? (fun r => r.ID == id) with
    | some r => Except.ok r
    | none => Except.error Err.notFound

/-- `ListAll`: `SELECT id, username, email, created_at FROM users`, scanning
every row into a slice; an empty table yields an empty slice, not an
error. -/
def ListAll (s : Store) : Except Err (List User) :=
  if s.closed then
    Except.error (Err.storage ("failed to list users : " ++ closedMsg))
  else
    Except.ok s.rows

/-- The effect of `UPDATE users SET username = ?, email = ? WHERE id = ?`
on one row: the row whose id matches gets the new username and email, every
other row is returned unchanged. -/
def updRow (u : User) (r : User) : User :=
  if r.ID == u.ID then { r with Username := u.Username, Email := u.Email } else r

/-- `Update`: runs the UPDATE statement above.  If no row has the given id
the statement affects zero rows and the Go code returns `ErrUserNotFound`.
If a row matches but the new username or email collides with a DIFFERENT
row, SQLite aborts the statement with a UNIQUE-constraint error, which the
Go code wraps generically (`fmt.Errorf("failed to update user : %w", err)`)
— it is NOT translated to `ErrDuplicateUser`.  Returns (error value, store
after the call). -/
def Update (s : Store) (u : User) : Except Err Unit × Store :=
  if s.closed then
    (Except.error (Err.storage ("failed to update user : " ++ closedMsg)), s)
  else if s.rows.any (fun r => r.ID == u.ID) then
    if s.rows.any (fun r => r.ID != u.ID && (r.Username == u.Username || r.Email == u.Email)) then
      (Except.error (Err.storage "failed to update user : UNIQUE constraint failed"), s)
    else
      (Except.ok (), { s with rows := s.rows.map (updRow u) })
  else
    (Except.error Err.notFound, s)

/-- `Delete`: `DELETE FROM users WHERE id = ?`; zero affected rows means
`ErrUserNotFound`, otherwise the row is physically removed.  Returns
(error value, store after the call). -/
def Delete (s : Store) (id : Int) : Except Err Unit × Store :=
  if s.closed then
    (Except.error (Err.storage ("failed to delete user : " ++ closedMsg)), s)
  else if s.rows.any (fun r => r.ID == id) then
    (Except.ok (), { s with rows := s.rows.filter (fun r => r.ID != id) })
  else
    (Except.error Err.notFound, s)

/-- `Close`: releases the handle; afterwards every operation on the store
fails.  (`database/sql`'s `Close` itself returns nil here.) -/
def Close (s : Store) : Except Err Unit × Store :=
  (Except.ok (), { s with closed := true })

/-- Runs a sequence of `Create` calls (each with its own clock reading),
requiring every one of them to succeed. -/
def createAll : List (Nat × User) → Store → Option Store
  | [], s => some s
  | p :: rest, s =>
    let res := Create p.1 s p.2
    match res.1 with
    | Except.ok _ => createAll rest res.2.1
    | Except.error _ => none

/-- The table's column constraints, as they bear on distinctness: the
PRIMARY KEY and both UNIQUE columns make id, username and email pairwise
distinct across rows. -/
def RowsDistinct (rows : List User) : Prop :=
  rows.Pairwise (fun a b => a.ID ≠ b.ID ∧ a.Username ≠ b.Username ∧ a.Email ≠ b.Email)

/-- The store invariant maintained by the schema and AUTOINCREMENT: rows
are pairwise distinct in id, username and email; every stored id is below
the AUTOINCREMENT counter; the counter is at least 1. -/
def Inv (s : Store) : Prop :=
  RowsDistinct s.rows ∧ (∀ r ∈ s.rows, r.ID < s.nextId) ∧ 1 ≤ s.nextId

/-- One step of the store's public interface (the clock reading of a
`Create` is arbitrary). -/
inductive Step : Store → Store → Prop where
  | create (now : Nat) (u : User) (s : Store) : Step s (Create now s u).2.1
  | update (u : User) (s : Store) : Step s (Update s u).2
  | delete (id : Int) (s : Store) : Step s (Delete s id).2
  | close (s : Store) : Step s (Close s).2

/-- States reachable from a freshly migrated store through the public
interface. -/
inductive Reachable : Store → Prop where
  | init : Reachable Store.init
  | step {s t : Store} : Reachable s → Step s t → Reachable t

instance (rows : List User) : Decidable (RowsDistinct rows) := by
  unfold RowsDistinct; infer_instance

instance (s : Store) : Decidable (Inv s) := by
  unfold Inv; infer_instance

instance {α : Type} [DecidableEq α] : DecidableEq (Except Err α) := fun a b =>
  match a, b with
  | Except.ok x, Except.ok y =>
    if h : x = y then isTrue (by rw [h]) else isFalse (by simp [h])
  | Except.error e, Except.error f =>
    if h : e = f then isTrue (by rw [h]) else isFalse (by simp [h])
  | Except.ok _, Except.error _ => isFalse (by simp)
  | Except.error _, Except.ok _ => isFalse (by simp)

/-! ### Helper lemmas -/

/-- `updRow` never touches the id column. -/
theorem updRow_id (u r : User) : (updRow u r).ID = r.ID := by
  unfold updRow; split <;> rfl

/-- `updRow` never touches the `created_at` column. -/
theorem updRow_createdAt (u r : User) : (updRow u r).CreatedAt = r.CreatedAt := by
  unfold updRow; split <;> rfl

/-- Scanning the table for an id finds nothing iff no row carries it. -/
theorem find?_id_eq_none (rows : List User) (i : Int) :
    (rows.find? (fun r => r.ID == i) = none) ↔ ∀ r ∈ rows, r.ID ≠ i := by
  rw [List.find?_eq_none]; simp

/-- The `WHERE id = ?` filter matches no row iff no row carries the id. -/
theorem any_id_eq_false (rows : List User) (i : Int) :
    (rows.any (fun r => r.ID == i) = false) ↔ ∀ r ∈ rows, r.ID ≠ i := by
  rw [List.any_eq_false]; simp

/-- With pairwise-distinct ids, a row is determined by its id. -/
theorem rowsDistinct_id_inj {rows : List User} (h : RowsDistinct rows)
    {a b : User} (ha : a ∈ rows) (hb : b ∈ rows) (hid : a.ID = b.ID) : a = b := by
  unfold RowsDistinct at h
  induction rows with
  | nil => cases ha
  | cons x xs ih =>
    rcases List.pairwise_cons.1 h with ⟨hx, hxs⟩
    cases ha with
    | head =>
      cases hb with
      | head => rfl
      | tail _ hb => exact absurd hid (hx b hb).1
    | tail _ ha =>
      cases hb with
      | head => exact absurd hid.symm (hx a ha).1
      | tail _ hb => exact ih hxs ha hb

/-- A successful insert grows the table by exactly one row, leaves the
handle open, and bumps the AUTOINCREMENT counter by one. -/
theorem create_ok_effects (now : Nat) (s : Store) (u : User)
    (h : (Create now s u).1 = Except.ok ()) :
    (Create now s u).2.1.rows.length = s.rows.length + 1 ∧
    (Create now s u).2.1.closed = s.closed ∧
    (Create now s u).2.1.nextId = s.nextId + 1 := by
  cases hc : s.closed with
  | true => rw [Create] at h; simp [hc] at h
  | false =>
    cases hd : (hasUsername s.rows u.Username || hasEmail s.rows u.Email) with
    | true => rw [Create] at h; simp [hc, hd] at h
    | false => simp [Create, hc, hd]

/-- A run of `createAll` that succeeds adds one row per call and leaves the
closed flag as it was. -/
theorem createAll_effects (l : List (Nat × User)) (s₀ s : Store)
    (h : createAll l s₀ = some s) :
    s.rows.length = s₀.rows.length + l.length ∧ s.closed = s₀.closed := by
  induction l generalizing s₀ with
  | nil =>
    simp [createAll] at h
    subst h; simp
  | cons p rest ih =>
    rw [createAll] at h
    cases he : (Create p.1 s₀ p.2).1 with
    | ok v =>
      cases v
      simp only [he] at h
      have hc := create_ok_effects p.1 s₀ p.2 he
      have hr := ih _ h
      refine ⟨?_, by rw [hr.2, hc.2.1]⟩
      rw [hr.1, hc.1]
      simp [Nat.add_assoc, Nat.add_comm 1 rest.length]
    | error e =>
      simp only [he] at h
      exact Option.noConfusion h

/-- On an open store with no colliding row, `Create` takes its success
branch: it appends the new row, bumps the counter, and writes the assigned
id (only) back onto the input record. -/
theorem create_ok_eq (now : Nat) (s : Store) (u : User)
    (hc : s.closed = false)
    (hd : (hasUsername s.rows u.Username || hasEmail s.rows u.Email) = false) :
    Create now s u =
      (Except.ok (),
       { s with rows := s.rows ++ [⟨s.nextId, u.Username, u.Email, now⟩],
                nextId := s.nextId + 1 },
       { u with ID := s.nextId }) := by
  simp [Create, hc, hd]

/-- The collision test of `Update` rejects exactly the states where some
OTHER row already holds the requested username or email. -/
theorem update_no_collision {rows : List User} {u : User}
    (h : rows.any (fun r => r.ID != u.ID &&
          (r.Username == u.Username || r.Email == u.Email)) = false) :
    ∀ r ∈ rows, r.ID ≠ u.ID → r.Username ≠ u.Username ∧ r.Email ≠ u.Email := by
  rw [List.any_eq_false] at h
  intro r hr hid
  have hrr := h r hr
  simp [hid] at hrr
  exact hrr

/-- `GetById` on an open store is exactly a scan of the rows for the id. -/
theorem getById_eq (rows : List User) (nid : Int) (i : Int) :
    GetById ⟨rows, nid, false⟩ i =
      match rows.find? (fun r => r.ID == i) with
      | some r => Except.ok r
      | none => Except.error Err.notFound := by
  simp [GetById]

/-- The UPDATE row function on the matched row: new username and email,
same id, same `created_at`. -/
theorem updRow_matching (u r : User) (h : r.ID = u.ID) :
    updRow u r = ⟨u.ID, u.Username, u.Email, r.CreatedAt⟩ := by
  unfold updRow
  rw [if_pos (by simp [h])]
  obtain ⟨i, un, em, ca⟩ := r
  simp only [] at h
  simp [h]

/-- The UPDATE row function leaves non-matching rows untouched. -/
theorem updRow_other (u r : User) (h : r.ID ≠ u.ID) : updRow u r = r := by
  unfold updRow
  rw [if_neg (by simp [h])]

/-- Scanning for an id commutes with the UPDATE row map, because the map
never changes ids. -/
theorem find?_id_map_updRow (u : User) (rows : List User) (j : Int) :
    (rows.map (updRow u)).find? (fun r => r.ID == j) =
      (rows.find? (fun r => r.ID == j)).map (updRow u) := by
  have hfun : ((fun r : User => r.ID == j) ∘ updRow u) = (fun r : User => r.ID == j) :=
    funext fun r => by simp [Function.comp, updRow_id]
  rw [List.find?_map, hfun]

/-- A freshly migrated store satisfies the schema invariant. -/
theorem inv_init : Inv Store.init := by decide

/-- `Create` preserves the schema invariant. -/
theorem inv_create (now : Nat) (s : Store) (u : User) (h : Inv s) :
    Inv (Create now s u).2.1 := by
  cases hc : s.closed with
  | true => simp only [Create, hc]; simpa using h
  | false =>
    cases hd : (hasUsername s.rows u.Username || hasEmail s.rows u.Email) with
    | true => simp only [Create, hc, hd]; simpa using h
    | false =>
      rcases Bool.or_eq_false_iff.1 hd with ⟨hdu, hde⟩
      rw [hasUsername, List.any_eq_false] at hdu
      rw [hasEmail, List.any_eq_false] at hde
      simp only [Create, hc, hd, Bool.false_eq_true, if_false, ite_false]
      refine ⟨?_, ?_, ?_⟩
      · rw [RowsDistinct, List.pairwise_append]
        refine ⟨h.1, List.pairwise_singleton _ _, ?_⟩
        intro a ha b hb
        rcases List.mem_singleton.1 hb with rfl
        refine ⟨Int.ne_of_lt (h.2.1 a ha), ?_, ?_⟩
        · have := hdu a ha; simpa using this
        · have := hde a ha; simpa using this
      · intro r hr
        rcases List.mem_append.1 hr with hr | hr
        · have := h.2.1 r hr
          simp only [] at *
          omega
        · rcases List.mem_singleton.1 hr with rfl
          simp only []
          omega
      · have := h.2.2
        simp only [] at *
        omega

/-- `Update` preserves the schema invariant. -/
theorem inv_update (s : Store) (u : User) (h : Inv s) :
    Inv (Update s u).2 := by
  cases hc : s.closed with
  | true => simp only [Update, hc]; simpa using h
  | false =>
    cases hm : s.rows.any (fun r => r.ID == u.ID) with
    | false => simp only [Update, hc, hm]; simpa using h
    | true =>
      cases hcol : s.rows.any (fun r => r.ID != u.ID &&
          (r.Username == u.Username || r.Email == u.Email)) with
      | true => simp only [Update, hc, hm, hcol]; simpa using h
      | false =>
        have hnc := update_no_collision hcol
        simp only [Update, hc, hm, hcol, Bool.false_eq_true, if_false, ite_false, if_true]
        refine ⟨?_, ?_, ?_⟩
        · rw [RowsDistinct, List.pairwise_map]
          refine List.Pairwise.imp_of_mem ?_ h.1
          intro a b ha hb hab
          refine ⟨by rw [updRow_id, updRow_id]; exact hab.1, ?_, ?_⟩
          · unfold updRow
            by_cases haid : a.ID = u.ID <;> by_cases hbid : b.ID = u.ID <;>
              simp [haid, hbid]
            · exact absurd (haid.trans hbid.symm) hab.1
            · exact fun hh => (hnc b hb hbid).1 hh.symm
            · exact (hnc a ha haid).1
            · exact hab.2.1
          · unfold updRow
            by_cases haid : a.ID = u.ID <;> by_cases hbid : b.ID = u.ID <;>
              simp [haid, hbid]
            · exact absurd (haid.trans hbid.symm) hab.1
            · exact fun hh => (hnc b hb hbid).2 hh.symm
            · exact (hnc a ha haid).2
            · exact hab.2.2
        · intro r hr
          rcases List.mem_map.1 hr with ⟨r₀, hr₀, rfl⟩
          rw [updRow_id]
          exact h.2.1 r₀ hr₀
        · exact h.2.2

/-- `Delete` preserves the schema invariant. -/
theorem inv_delete (s : Store) (id : Int) (h : Inv s) :
    Inv (Delete s id).2 := by
  cases hc : s.closed with
  | true => simp only [Delete, hc]; simpa using h
  | false =>
    cases hm : s.rows.any (fun r => r.ID == id) with
    | false => simp only [Delete, hc, hm]; simpa using h
    | true =>
      simp only [Delete, hc, hm, Bool.false_eq_true, if_false, ite_false, if_true]
      refine ⟨List.Pairwise.filter _ h.1, ?_, h.2.2⟩
      intro r hr
      exact h.2.1 r (List.mem_filter.1 hr).1

/-- `Close` preserves the schema invariant. -/
theorem inv_close (s : Store) (h : Inv s) : Inv (Close s).2 := by
  simpa [Close, Inv, RowsDistinct] using h

/-- Every interface step preserves the schema invariant. -/
theorem inv_step {s t : Store} (h : Inv s) (hst : Step s t) : Inv t := by
  cases hst with
  | create now u s => exact inv_create now s u h
  | update u s => exact inv_update s u h
  | delete id s => exact inv_delete s id h
  | close s => exact inv_close s h

/-- Every reachable state satisfies the schema invariant. -/
theorem inv_reachable {s : Store} (h : Reachable s) : Inv s := by
  induction h with
  | init => exact inv_init
  | step _ hst ih => exact inv_step ih hst

/-! ### Claims -/

/-- Claim C2: a uniqueness violation on username or email during `Create`
is surfaced as the distinguished duplicate error value, branchable without
string matching, whereas the same collision during `Update` is surfaced as
a generic storage error, not the duplicate error. -/
theorem duplicate_create_vs_update (now : Nat) (s : Store) (u v : User)
    (hc : s.closed = false) :
    ((hasUsername s.rows u.Username = true ∨ hasEmail s.rows u.Email = true) →
      (Create now s u).1 = Except.error Err.duplicate) ∧
    ((∃ r ∈ s.rows, r.ID = v.ID) →
      (∃ r ∈ s.rows, r.ID ≠ v.ID ∧ (r.Username = v.Username ∨ r.Email = v.Email)) →
      (Update s v).1 =
        Except.error (Err.storage "failed to update user : UNIQUE constraint failed") ∧
      (Update s v).1 ≠ Except.error Err.duplicate) := by
  constructor
  · intro hd
    have hdup : (hasUsername s.rows u.Username || hasEmail s.rows u.Email) = true := by
      rcases hd with h | h <;> simp [h]
    simp [Create, hc, hdup]
  · intro hex hcol
    have h1 : s.rows.any (fun r => r.ID == v.ID) = true := by
      rw [List.any_eq_true]
      rcases hex with ⟨r, hr, he⟩
      exact ⟨r, hr, by simp [he]⟩
    have h2 : s.rows.any (fun r => r.ID != v.ID &&
        (r.Username == v.Username || r.Email == v.Email)) = true := by
      rw [List.any_eq_true]
      rcases hcol with ⟨r, hr, hne, hcl⟩
      refine ⟨r, hr, ?_⟩
      rcases hcl with h | h <;> simp [hne, h]
    simp [Update, hc, h1, h2]

/-- Claim C2 witness: on a concrete two-row store, creating a record whose
username collides yields the duplicate error, while updating row 2 to the
colliding username yields a generic storage error. -/
theorem duplicate_create_vs_update_witness :
    (Create 9 ⟨[⟨1, "a", "a@x", 1⟩, ⟨2, "b", "b@x", 1⟩], 3, false⟩
        ⟨0, "a", "z@x", 0⟩).1 = Except.error Err.duplicate ∧
    (Update ⟨[⟨1, "a", "a@x", 1⟩, ⟨2, "b", "b@x", 1⟩], 3, false⟩
        ⟨2, "a", "b@x", 0⟩).1 =
      Except.error (Err.storage "failed to update user : UNIQUE constraint failed") := by
  have h := duplicate_create_vs_update 9
    ⟨[⟨1, "a", "a@x", 1⟩, ⟨2, "b", "b@x", 1⟩], 3, false⟩
    ⟨0, "a", "z@x", 0⟩ ⟨2, "a", "b@x", 0⟩ rfl
  exact ⟨h.1 (Or.inl (by decide)), (h.2 (by decide) (by decide)).1⟩

/-- Claim C3: every failing `Create` call (including a duplicate) rolls the
transaction back and leaves the store exactly as it was — no partial row,
no consumed id. -/
theorem create_failure_rolls_back (now : Nat) (s : Store) (u : User)
    (h : (Create now s u).1 ≠ Except.ok ()) :
    (Create now s u).2.1 = s := by
  cases hc : s.closed with
  | true => simp [Create, hc]
  | false =>
    cases hd : (hasUsername s.rows u.Username || hasEmail s.rows u.Email) with
    | true => simp [Create, hc, hd]
    | false => exact absurd (by simp [Create, hc, hd]) h

/-- Claim C3 witness: a duplicate insert on a concrete one-row store fails
and leaves the store unchanged. -/
theorem create_failure_rolls_back_witness :
    (Create 7 ⟨[⟨1, "a", "a@x", 1⟩], 2, false⟩ ⟨0, "a", "b@x", 0⟩).1 ≠ Except.ok () ∧
    (Create 7 ⟨[⟨1, "a", "a@x", 1⟩], 2, false⟩ ⟨0, "a", "b@x", 0⟩).2.1 =
      ⟨[⟨1, "a", "a@x", 1⟩], 2, false⟩ :=
  ⟨by decide,
   create_failure_rolls_back 7 ⟨[⟨1, "a", "a@x", 1⟩], 2, false⟩ ⟨0, "a", "b@x", 0⟩ (by decide)⟩

/-- Claim C4: on an open store, `GetById`, `Update` and `Delete` return the
not-found error exactly when zero rows carry the addressed id. -/
theorem notFound_iff_zero_rows (s : Store) (id : Int) (v : User)
    (hc : s.closed = false) :
    (GetById s id = Except.error Err.notFound ↔ ∀ r ∈ s.rows, r.ID ≠ id) ∧
    ((Update s v).1 = Except.error Err.notFound ↔ ∀ r ∈ s.rows, r.ID ≠ v.ID) ∧
    ((Delete s id).1 = Except.error Err.notFound ↔ ∀ r ∈ s.rows, r.ID ≠ id) := by
  refine ⟨?_, ?_, ?_⟩
  · cases hf : s.rows.find? (fun r => r.ID == id) with
    | some r =>
      simp only [GetById, hc, Bool.false_eq_true, if_false, ite_false, hf]
      constructor
      · intro h; exact absurd h (by simp)
      · intro hall
        exact absurd (by simpa using List.find?_some hf)
          (hall r (List.mem_of_find?_eq_some hf))
    | none =>
      simp only [GetById, hc, Bool.false_eq_true, if_false, ite_false, hf]
      simpa using (find?_id_eq_none s.rows id).1 hf
  · cases ha : s.rows.any (fun r => r.ID == v.ID) with
    | false =>
      simp only [Update, hc, ha, Bool.false_eq_true, if_false, ite_false]
      simpa using (any_id_eq_false s.rows v.ID).1 ha
    | true =>
      rcases List.any_eq_true.1 ha with ⟨r, hr, he⟩
      simp only [Update, hc, ha, Bool.false_eq_true, if_false, ite_false, if_true]
      constructor
      · intro h
        split at h <;> exact absurd h (by simp)
      · intro hall
        exact absurd (by simpa using he) (hall r hr)
  · cases ha : s.rows.any (fun r => r.ID == id) with
    | false =>
      simp only [Delete, hc, ha, Bool.false_eq_true, if_false, ite_false]
      simpa using (any_id_eq_false s.rows id).1 ha
    | true =>
      rcases List.any_eq_true.1 ha with ⟨r, hr, he⟩
      simp only [Delete, hc, ha, Bool.false_eq_true, if_false, ite_false, if_true]
      constructor
      · intro h; exact absurd h (by simp)
      · intro hall
        exact absurd (by simpa using he) (hall r hr)

/-- Claim C4 witness: on a concrete one-row open store, id 1 is found and
id 999 yields the not-found error for all three operations. -/
theorem notFound_iff_zero_rows_witness :
    (GetById ⟨[⟨1, "a", "a@x", 1⟩], 2, false⟩ 999 = Except.error Err.notFound ↔
      ∀ r ∈ (⟨[⟨1, "a", "a@x", 1⟩], 2, false⟩ : Store).rows, r.ID ≠ 999) ∧
    ((Update ⟨[⟨1, "a", "a@x", 1⟩], 2, false⟩ ⟨999, "x", "x@x", 0⟩).1 =
        Except.error Err.notFound ↔
      ∀ r ∈ (⟨[⟨1, "a", "a@x", 1⟩], 2, false⟩ : Store).rows, r.ID ≠ 999) ∧
    ((Delete ⟨[⟨1, "a", "a@x", 1⟩], 2, false⟩ 999).1 = Except.error Err.notFound ↔
      ∀ r ∈ (⟨[⟨1, "a", "a@x", 1⟩], 2, false⟩ : Store).rows, r.ID ≠ 999) :=
  notFound_iff_zero_rows ⟨[⟨1, "a", "a@x", 1⟩], 2, false⟩ 999 ⟨999, "x", "x@x", 0⟩ rfl

/-- Claim C9: once `Close` has been called, every one of the five
operations fails with a (storage-class) error rather than succeeding. -/
theorem ops_fail_after_close (s : Store) (now : Nat) (u : User) (id j : Int) :
    (Create now (Close s).2 u).1 =
      Except.error (Err.storage ("Failed to begin transctions : " ++ closedMsg)) ∧
    GetById (Close s).2 id =
      Except.error (Err.storage ("Failed to get user: " ++ closedMsg)) ∧
    ListAll (Close s).2 =
      Except.error (Err.storage ("failed to list users : " ++ closedMsg)) ∧
    (Update (Close s).2 u).1 =
      Except.error (Err.storage ("failed to update user : " ++ closedMsg)) ∧
    (Delete (Close s).2 j).1 =
      Except.error (Err.storage ("failed to delete user : " ++ closedMsg)) := by
  simp [Close, Create, GetById, ListAll, Update, Delete]

/-- Claim C10: a `Create` that fails with the duplicate error leaves the
caller's input record completely unchanged (in particular its id keeps its
pre-call value, since the id is written back only after a successful
insert). -/
theorem create_duplicate_leaves_input_unchanged (now : Nat) (s : Store) (u : User)
    (h : (Create now s u).1 = Except.error Err.duplicate) :
    (Create now s u).2.2 = u := by
  cases hc : s.closed with
  | true => simp [Create, hc]
  | false =>
    cases hd : (hasUsername s.rows u.Username || hasEmail s.rows u.Email) with
    | true => simp [Create, hc, hd]
    | false => rw [Create] at h; simp [hc, hd] at h

/-- Claim C10 witness: a concrete duplicate insert returns the input record
with its id still 0. -/
theorem create_duplicate_leaves_input_unchanged_witness :
    (Create 7 ⟨[⟨1, "a", "a@x", 1⟩], 2, false⟩ ⟨0, "a", "b@x", 0⟩).1 =
      Except.error Err.duplicate ∧
    (Create 7 ⟨[⟨1, "a", "a@x", 1⟩], 2, false⟩ ⟨0, "a", "b@x", 0⟩).2.2 =
      ⟨0, "a", "b@x", 0⟩ :=
  ⟨by decide,
   create_duplicate_leaves_input_unchanged 7 ⟨[⟨1, "a", "a@x", 1⟩], 2, false⟩
     ⟨0, "a", "b@x", 0⟩ (by decide)⟩

/-- Claim C1 counterexample: a successful `Create` does NOT write the
server-assigned `created_at` back onto the caller's record.  Concretely,
creating alice at clock 5 succeeds and stores the row with `created_at` 5,
yet the caller's record still carries its pre-call zero `created_at`; only
the id is written back. -/
theorem create_createdAt_not_written_back :
    (Create 5 Store.init ⟨0, "alice", "alice@x", 0⟩).1 = Except.ok () ∧
    (Create 5 Store.init ⟨0, "alice", "alice@x", 0⟩).2.1.rows =
      [⟨1, "alice", "alice@x", 5⟩] ∧
    (Create 5 Store.init ⟨0, "alice", "alice@x", 0⟩).2.2.CreatedAt = 0 := by
  decide

/-- Claim C1 (amended): for every (username, email) pair colliding with no
existing record, on an open store satisfying the schema invariant and a
non-zero clock, `Create` succeeds, assigns a strictly positive,
previously-unused id, and stores the new row with the non-zero clock as its
`created_at`; of the two server-assigned fields only the id is written back
onto the caller's record — its `created_at` field is left as it was. -/
theorem create_assigns_fresh_id (now : Nat) (s : Store) (u : User)
    (hinv : Inv s) (hc : s.closed = false)
    (h1 : hasUsername s.rows u.Username = false)
    (h2 : hasEmail s.rows u.Email = false) (hnow : 0 < now) :
    (Create now s u).1 = Except.ok () ∧
    0 < (Create now s u).2.2.ID ∧
    (∀ r ∈ s.rows, r.ID ≠ (Create now s u).2.2.ID) ∧
    (Create now s u).2.1.rows =
      s.rows ++ [⟨(Create now s u).2.2.ID, u.Username, u.Email, now⟩] ∧
    now ≠ 0 ∧
    (Create now s u).2.2 = { u with ID := s.nextId } := by
  have hd : (hasUsername s.rows u.Username || hasEmail s.rows u.Email) = false := by
    simp [h1, h2]
  have hce := create_ok_eq now s u hc hd
  refine ⟨?_, ?_, ?_, ?_, Nat.pos_iff_ne_zero.1 hnow, ?_⟩
  · rw [hce]
  · rw [hce]
    show (0 : Int) < s.nextId
    have := hinv.2.2
    omega
  · rw [hce]
    intro r hr
    show r.ID ≠ s.nextId
    have := hinv.2.1 r hr
    omega
  · rw [hce]
  · rw [hce]

/-- Claim C1 witness: creating bob on a concrete one-row store at clock 4
succeeds, assigns the fresh positive id 2 and stores `created_at` 4. -/
theorem create_assigns_fresh_id_witness :
    Inv ⟨[⟨1, "a", "a@x", 1⟩], 2, false⟩ ∧
    (Create 4 ⟨[⟨1, "a", "a@x", 1⟩], 2, false⟩ ⟨0, "bob", "b@x", 0⟩).1 = Except.ok () ∧
    0 < (Create 4 ⟨[⟨1, "a", "a@x", 1⟩], 2, false⟩ ⟨0, "bob", "b@x", 0⟩).2.2.ID ∧
    (∀ r ∈ (⟨[⟨1, "a", "a@x", 1⟩], 2, false⟩ : Store).rows,
      r.ID ≠ (Create 4 ⟨[⟨1, "a", "a@x", 1⟩], 2, false⟩ ⟨0, "bob", "b@x", 0⟩).2.2.ID) := by
  have h := create_assigns_fresh_id 4 ⟨[⟨1, "a", "a@x", 1⟩], 2, false⟩
    ⟨0, "bob", "b@x", 0⟩ (by decide) rfl (by decide) (by decide) (by decide)
  exact ⟨by decide, h.1, h.2.1, h.2.2.1⟩

/-- Claim C6: on a store satisfying the schema invariant, reading back a
freshly created record by its assigned id returns a record equal in all
four fields — id, username, email, created_at — to the row the `Create`
stored. -/
theorem getById_after_create (now : Nat) (s : Store) (u : User)
    (hinv : Inv s) (h : (Create now s u).1 = Except.ok ()) :
    GetById (Create now s u).2.1 (Create now s u).2.2.ID =
      Except.ok ⟨(Create now s u).2.2.ID, u.Username, u.Email, now⟩ := by
  cases hc : s.closed with
  | true => rw [Create] at h; simp [hc] at h
  | false =>
    cases hd : (hasUsername s.rows u.Username || hasEmail s.rows u.Email) with
    | true => rw [Create] at h; simp [hc, hd] at h
    | false =>
      have hnone : s.rows.find? (fun r => r.ID == s.nextId) = none := by
        rw [find?_id_eq_none]
        intro r hr
        exact Int.ne_of_lt (hinv.2.1 r hr)
      simp only [Create, hc, hd, Bool.false_eq_true, if_false, ite_false, GetById]
      simp [List.find?_append, hnone]

/-- Claim C6 witness: create alice on the empty store at clock 3, then read
id 1 back: all four fields match the stored row. -/
theorem getById_after_create_witness :
    Inv Store.init ∧
    GetById (Create 3 Store.init ⟨0, "alice", "a@x", 0⟩).2.1
        (Create 3 Store.init ⟨0, "alice", "a@x", 0⟩).2.2.ID =
      Except.ok ⟨(Create 3 Store.init ⟨0, "alice", "a@x", 0⟩).2.2.ID, "alice", "a@x", 3⟩ :=
  ⟨by decide, getById_after_create 3 Store.init ⟨0, "alice", "a@x", 0⟩ (by decide) (by decide)⟩

/-- Claim C8: `ListAll` on an empty store returns an empty sequence and no
error; after N successful creates (and no deletes) it returns exactly N
records. -/
theorem listAll_empty_and_counts :
    ListAll Store.init = Except.ok [] ∧
    ∀ (l : List (Nat × User)) (s : Store), createAll l Store.init = some s →
      ListAll s = Except.ok s.rows ∧ s.rows.length = l.length := by
  refine ⟨rfl, ?_⟩
  intro l s h
  have he := createAll_effects l Store.init s h
  have hc : s.closed = false := he.2
  constructor
  · simp [ListAll, hc]
  · simpa [Store.init] using he.1

/-- Claim C8 witness: two successful creates from the empty store yield a
store whose `ListAll` returns exactly its 2 rows. -/
theorem listAll_empty_and_counts_witness :
    createAll [(1, ⟨0, "a", "a@x", 0⟩), (2, ⟨0, "b", "b@x", 0⟩)] Store.init =
      some ⟨[⟨1, "a", "a@x", 1⟩, ⟨2, "b", "b@x", 2⟩], 3, false⟩ ∧
    ListAll ⟨[⟨1, "a", "a@x", 1⟩, ⟨2, "b", "b@x", 2⟩], 3, false⟩ =
      Except.ok [⟨1, "a", "a@x", 1⟩, ⟨2, "b", "b@x", 2⟩] ∧
    ([⟨1, "a", "a@x", 1⟩, ⟨2, "b", "b@x", 2⟩] : List User).length = 2 := by
  have h := listAll_empty_and_counts.2 [(1, ⟨0, "a", "a@x", 0⟩), (2, ⟨0, "b", "b@x", 0⟩)]
    ⟨[⟨1, "a", "a@x", 1⟩, ⟨2, "b", "b@x", 2⟩], 3, false⟩ (by decide)
  exact ⟨by decide, h.1, h.2⟩

/-- Claim C5 counterexample: on an open two-row store, id 2 exists, yet
`Update` with id 2 and the username of row 1 does NOT overwrite row 2 —
SQLite aborts on the UNIQUE constraint, the store is unchanged and row 2
keeps its old username and email. -/
theorem update_collision_not_overwritten :
    (⟨[⟨1, "a", "a@x", 1⟩, ⟨2, "b", "b@x", 1⟩], 3, false⟩ : Store).closed = false ∧
    (∃ r ∈ (⟨[⟨1, "a", "a@x", 1⟩, ⟨2, "b", "b@x", 1⟩], 3, false⟩ : Store).rows, r.ID = 2) ∧
    (Update ⟨[⟨1, "a", "a@x", 1⟩, ⟨2, "b", "b@x", 1⟩], 3, false⟩ ⟨2, "a", "c@x", 0⟩).2 =
      ⟨[⟨1, "a", "a@x", 1⟩, ⟨2, "b", "b@x", 1⟩], 3, false⟩ ∧
    GetById (Update ⟨[⟨1, "a", "a@x", 1⟩, ⟨2, "b", "b@x", 1⟩], 3, false⟩
        ⟨2, "a", "c@x", 0⟩).2 2 = Except.ok ⟨2, "b", "b@x", 1⟩ := by
  decide

/-- Claim C5 (amended): on an open store satisfying the schema invariant,
`Update` on an existing identifier whose new username and email collide
with no OTHER row succeeds and overwrites exactly username and email for
that row, leaving its id and `created_at` (and every other row, the
counter, and the closed flag) unchanged; `Update` on a non-existent
identifier returns the not-found error and leaves the entire store state
unchanged.  (A collision with another row is instead the generic storage
error of claim C2, with no row overwritten.) -/
theorem update_spec (s : Store) (u : User) (hinv : Inv s) (hc : s.closed = false) :
    ((∃ r ∈ s.rows, r.ID = u.ID) →
      (∀ r ∈ s.rows, r.ID ≠ u.ID → r.Username ≠ u.Username ∧ r.Email ≠ u.Email) →
      (Update s u).1 = Except.ok () ∧
      (∀ r ∈ s.rows, r.ID = u.ID →
        GetById (Update s u).2 u.ID = Except.ok ⟨u.ID, u.Username, u.Email, r.CreatedAt⟩) ∧
      (∀ j : Int, j ≠ u.ID → GetById (Update s u).2 j = GetById s j) ∧
      (Update s u).2.nextId = s.nextId ∧ (Update s u).2.closed = false) ∧
    ((∀ r ∈ s.rows, r.ID ≠ u.ID) → Update s u = (Except.error Err.notFound, s)) := by
  obtain ⟨rows, nid, scl⟩ := s
  replace hc : scl = false := hc
  subst hc
  constructor
  · intro hex hnocol
    have h1 : rows.any (fun r => r.ID == u.ID) = true := by
      rw [List.any_eq_true]
      rcases hex with ⟨r, hr, he⟩
      exact ⟨r, hr, by simp [he]⟩
    have h2 : rows.any (fun r => r.ID != u.ID &&
        (r.Username == u.Username || r.Email == u.Email)) = false := by
      rw [List.any_eq_false]
      intro r hr
      by_cases hid : r.ID = u.ID
      · simp [hid]
      · have h := hnocol r hr hid
        simp [hid, h.1, h.2]
    have hupd : Update ⟨rows, nid, false⟩ u =
        (Except.ok (), ⟨rows.map (updRow u), nid, false⟩) := by
      simp [Update, h1, h2]
    rw [hupd]
    refine ⟨rfl, ?_, ?_, rfl, rfl⟩
    · intro r hr hrid
      have hsome : (rows.find? (fun x => x.ID == u.ID)).isSome = true :=
        List.find?_isSome.2 ⟨r, hr, by simp [hrid]⟩
      obtain ⟨r₀, hf⟩ := Option.isSome_iff_exists.1 hsome
      have hmem := List.mem_of_find?_eq_some hf
      have hid₀ : r₀.ID = u.ID := by simpa using List.find?_some hf
      have hreq : r = r₀ := rowsDistinct_id_inj hinv.1 hr hmem (hrid.trans hid₀.symm)
      rw [getById_eq, find?_id_map_updRow, hf]
      show Except.ok (updRow u r₀) = _
      rw [updRow_matching u r₀ hid₀, hreq]
    · intro j hj
      rw [getById_eq, getById_eq, find?_id_map_updRow]
      cases hfj : rows.find? (fun x => x.ID == j) with
      | none => rfl
      | some r =>
        have hrid : r.ID = j := by simpa using List.find?_some hfj
        show Except.ok (updRow u r) = Except.ok r
        rw [updRow_other u r (by rw [hrid]; exact hj)]
  · intro hall
    have h1 : rows.any (fun r => r.ID == u.ID) = false :=
      (any_id_eq_false rows u.ID).2 hall
    simp [Update, h1]

/-- Claim C5 witness: updating row 2 of a concrete two-row store to a
non-colliding username and email succeeds, overwrites exactly those two
fields keeping `created_at`, and leaves row 1 untouched. -/
theorem update_spec_witness :
    Inv ⟨[⟨1, "a", "a@x", 1⟩, ⟨2, "b", "b@x", 1⟩], 3, false⟩ ∧
    (Update ⟨[⟨1, "a", "a@x", 1⟩, ⟨2, "b", "b@x", 1⟩], 3, false⟩ ⟨2, "c", "c@x", 9⟩).1 =
      Except.ok () ∧
    GetById (Update ⟨[⟨1, "a", "a@x", 1⟩, ⟨2, "b", "b@x", 1⟩], 3, false⟩
        ⟨2, "c", "c@x", 9⟩).2 2 = Except.ok ⟨2, "c", "c@x", 1⟩ ∧
    GetById (Update ⟨[⟨1, "a", "a@x", 1⟩, ⟨2, "b", "b@x", 1⟩], 3, false⟩
        ⟨2, "c", "c@x", 9⟩).2 1 =
      GetById ⟨[⟨1, "a", "a@x", 1⟩, ⟨2, "b", "b@x", 1⟩], 3, false⟩ 1 := by
  have h := update_spec ⟨[⟨1, "a", "a@x", 1⟩, ⟨2, "b", "b@x", 1⟩], 3, false⟩
    ⟨2, "c", "c@x", 9⟩ (by decide) rfl
  have h1 := h.1 (by decide) (by decide)
  exact ⟨by decide, h1.1, h1.2.1 ⟨2, "b", "b@x", 1⟩ (by decide) rfl, h1.2.2.1 1 (by decide)⟩

/-- Claim C7 counterexample: the store itself does not enforce
non-emptiness — SQLite's NOT NULL admits the empty string, and the Go code
never validates (the CLI does, outside the store).  Creating a user with
empty username and email on the fresh store succeeds, so a reachable state
contains a stored user with empty username and email. -/
theorem empty_username_reachable :
    Reachable (Create 5 Store.init ⟨0, "", "", 0⟩).2.1 ∧
    (Create 5 Store.init ⟨0, "", "", 0⟩).1 = Except.ok () ∧
    ∃ r ∈ (Create 5 Store.init ⟨0, "", "", 0⟩).2.1.rows, r.Username = "" ∧ r.Email = "" :=
  ⟨Reachable.step Reachable.init (Step.create 5 ⟨0, "", "", 0⟩ Store.init),
   by decide, by decide⟩

/-- Claim C7 (amended): in every reachable store state, username and email
are each unique among all currently stored users, and every operation
preserves this; non-emptiness of username and email is NOT a store
invariant (it is enforced only by the CLI layer). -/
theorem reachable_rows_unique (s : Store) (h : Reachable s) :
    s.rows.Pairwise (fun a b => a.Username ≠ b.Username) ∧
    s.rows.Pairwise (fun a b => a.Email ≠ b.Email) := by
  have hinv := inv_reachable h
  have hd : s.rows.Pairwise
      (fun a b => a.ID ≠ b.ID ∧ a.Username ≠ b.Username ∧ a.Email ≠ b.Email) := hinv.1
  exact ⟨hd.imp (fun hab => hab.2.1), hd.imp (fun hab => hab.2.2)⟩

/-- Claim C7 witness: the state after one create from the fresh store is
reachable and its rows have pairwise-distinct usernames and emails. -/
theorem reachable_rows_unique_witness :
    (Create 5 Store.init ⟨0, "alice", "a@x", 0⟩).2.1.rows.Pairwise
      (fun a b => a.Username ≠ b.Username) ∧
    (Create 5 Store.init ⟨0, "alice", "a@x", 0⟩).2.1.rows.Pairwise
      (fun a b => a.Email ≠ b.Email) :=
  reachable_rows_unique _
    (Reachable.step Reachable.init (Step.create 5 ⟨0, "alice", "a@x", 0⟩ Store.init))

end Umm
